import Mathlib

/-!
Verification of the line-indexed file-access layer (Go package `internal/index`)
and the viewport/cursor navigation engine (Go package `internal/nav`) of the
jsonlogviewer repository.

The Go code is shallowly embedded: byte sequences become `List Nat` (one entry
per byte, so the byte 0x0A is the number 10 and 0x0D is 13), Go strings built
from byte slices are kept as the underlying byte lists, Go `int` becomes `Int`,
Go `uint64` offsets become `Nat`, and fallible functions return `Except`.
File-system access is not modelled: `Open`/`OpenReader` receive the byte
sequence that the Go code obtains from mmap / io.ReadAll, together with the
path or display name.
-/

namespace index

/-- Errors of the index package: `ErrInvalidLine` ("invalid line number") and
`ErrEmptyFile` ("file is empty"). -/
inductive IndexError where
  | ErrInvalidLine
  | ErrEmptyFile

/-- The `Index` struct: memory-mapped data, line-start offsets, and the name
used for error messages (the `reader io.Closer` field only carries the handle
for `Close` and holds no observable state, so it is omitted). -/
structure Index where
  data : List Nat
  offsets : List Nat
  name : String

/-- `buildOffsets` body, scanning for newline bytes: offset 0 always starts the
list; every byte position `i` holding a newline (10) with `i+1` still inside
the data contributes `i+1`; finally the trailing offset is dropped when it is
`>=` the data length (the "remove trailing empty line" step of the source). -/
def buildOffsetsList (data : List Nat) : List Nat :=
  let offs := 0 :: (List.range data.length).filterMap
    (fun i => if data.getD i 0 = 10 ∧ i + 1 < data.length then some (i + 1) else none)
  if 1 < offs.length ∧ data.length ≤ offs.getLastD 0 then offs.dropLast else offs

/-- `(*Index).buildOffsets`: rejects empty data with `ErrEmptyFile`, otherwise
produces the offset table of `buildOffsetsList`. -/
def buildOffsets (data : List Nat) : Except IndexError (List Nat) :=
  if data.length = 0 then .error .ErrEmptyFile
  else .ok (buildOffsetsList data)

/-- `Open(path)`: the bytes the Go code reads out of the mmap are passed in as
`data`; a successful open yields the index with `name = path`. -/
def Open (data : List Nat) (path : String) : Except IndexError Index :=
  match buildOffsets data with
  | .error e => .error e
  | .ok offs => .ok ⟨data, offs, path⟩

/-- `OpenReader(r, name)`: the bytes produced by `io.ReadAll(r)` are passed in
as `data`; a successful open yields the index with the given display name. -/
def OpenReader (data : List Nat) (name : String) : Except IndexError Index :=
  match buildOffsets data with
  | .error e => .error e
  | .ok offs => .ok ⟨data, offs, name⟩

/-- `(*Index).LineCount`: the number of entries of the offset table, as a Go
`int`. -/
def LineCount (idx : Index) : Int :=
  idx.offsets.length

/-- `(*Index).GetLine(n)`: validity check, then the byte range from
`offsets[n-1]` to either `offsets[n]` (with one newline byte excluded there)
or the end of the data, with one trailing carriage-return byte (13) trimmed. -/
def GetLine (idx : Index) (n : Int) : Except IndexError (List Nat) :=
  if n < 1 ∨ (idx.offsets.length : Int) < n then .error .ErrInvalidLine
  else
    let start := idx.offsets.getD (n - 1).toNat 0
    let e :=
      if n < (idx.offsets.length : Int) then
        let e0 := idx.offsets.getD n.toNat 0
        if 0 < e0 ∧ idx.data.getD (e0 - 1) 0 = 10 then e0 - 1 else e0
      else idx.data.length
    let e2 := if start < e ∧ idx.data.getD (e - 1) 0 = 13 then e - 1 else e
    .ok ((idx.data.drop start).take (e2 - start))

/-- `(*Index).GetLineString(n)`: converts the bytes of `GetLine` to a Go
string; under the bytes-as-lists model the conversion is the identity. -/
def GetLineString (idx : Index) (n : Int) : Except IndexError (List Nat) :=
  GetLine idx n

/-- The bytes of the three-line file used by the tests and by Scenario A of
the spec: `"line1\nline2\nline3\n"`. -/
def sampleThreeLines : List Nat :=
  [108, 105, 110, 101, 49, 10, 108, 105, 110, 101, 50, 10, 108, 105, 110, 101, 51, 10]

/-- Whether an `Except` result is a success. -/
def isOk {α : Type} : Except IndexError α → Bool
  | .ok _ => true
  | .error _ => false

end index

namespace nav

/-- The `Viewport` struct: total number of lines, visible height, 1-indexed
cursor line, and 1-indexed first visible line. All fields are Go `int`s. -/
structure Viewport where
  TotalLines : Int
  Height : Int
  Cursor : Int
  Offset : Int

/-- The cursor part of `(*Viewport).clamp` (run when `TotalLines >= 1`):
raise the cursor to 1, then lower it to `TotalLines`. -/
def clampCursor (totalLines c : Int) : Int :=
  let c1 := if c < 1 then 1 else c
  if c1 > totalLines then totalLines else c1

/-- The offset part of `(*Viewport).clamp` (run when `TotalLines >= 1`), with
`c` the already-clamped cursor: pull the offset down to the cursor, push it up
to `max(1, cursor-height+1)` when the cursor fell off the bottom, then clamp
it into `[1, max(1, totalLines-height+1)]`. -/
def clampOffset (totalLines height c o : Int) : Int :=
  let o1 := if c < o then c else o
  let maxOffset := c - height + 1
  let maxOffset := if maxOffset < 1 then 1 else maxOffset
  let o2 := if c ≥ o1 + height then maxOffset else o1
  let o3 := if o2 < 1 then 1 else o2
  let maxValidOffset := totalLines - height + 1
  let maxValidOffset := if maxValidOffset < 1 then 1 else maxValidOffset
  if o3 > maxValidOffset then maxValidOffset else o3

/-- `(*Viewport).clamp`: pin cursor and offset to 1 when fewer than one line
exists, otherwise clamp the cursor and then the offset. -/
def clamp (v : Viewport) : Viewport :=
  if v.TotalLines < 1 then ⟨v.TotalLines, v.Height, 1, 1⟩
  else
    let c := clampCursor v.TotalLines v.Cursor
    ⟨v.TotalLines, v.Height, c, clampOffset v.TotalLines v.Height c v.Offset⟩

/-- `New(totalLines, height)`: cursor and offset start at 1, then clamp. -/
def New (totalLines height : Int) : Viewport :=
  clamp ⟨totalLines, height, 1, 1⟩

/-- `(*Viewport).SetHeight`: floor the height to 1, then clamp. -/
def SetHeight (v : Viewport) (height : Int) : Viewport :=
  clamp ⟨v.TotalLines, if height < 1 then 1 else height, v.Cursor, v.Offset⟩

/-- `(*Viewport).SetTotalLines`: replace the total, then clamp. -/
def SetTotalLines (v : Viewport) (totalLines : Int) : Viewport :=
  clamp ⟨totalLines, v.Height, v.Cursor, v.Offset⟩

/-- `(*Viewport).Down(n)`: no-op when `n < 1`, else advance the cursor by `n`
and clamp. -/
def Down (v : Viewport) (n : Int) : Viewport :=
  if n < 1 then v else clamp ⟨v.TotalLines, v.Height, v.Cursor + n, v.Offset⟩

/-- `(*Viewport).Up(n)`: no-op when `n < 1`, else retreat the cursor by `n`
and clamp. -/
def Up (v : Viewport) (n : Int) : Viewport :=
  if n < 1 then v else clamp ⟨v.TotalLines, v.Height, v.Cursor - n, v.Offset⟩

/-- `(*Viewport).PageDown`: move the offset one screen down, put the cursor on
the new first visible line, and clamp. -/
def PageDown (v : Viewport) : Viewport :=
  clamp ⟨v.TotalLines, v.Height, v.Offset + v.Height, v.Offset + v.Height⟩

/-- `(*Viewport).PageUp`: move the offset one screen up (floored at 1), put
the cursor on the last visible line (capped at `TotalLines`), and clamp. -/
def PageUp (v : Viewport) : Viewport :=
  let o := v.Offset - v.Height
  let o := if o < 1 then 1 else o
  let c := o + v.Height - 1
  let c := if c > v.TotalLines then v.TotalLines else c
  clamp ⟨v.TotalLines, v.Height, c, o⟩

/-- `(*Viewport).HalfPageDown`: shift offset and cursor down by
`max(1, height/2)` (Go division truncates) and clamp. -/
def HalfPageDown (v : Viewport) : Viewport :=
  let half := Int.tdiv v.Height 2
  let half := if half < 1 then 1 else half
  clamp ⟨v.TotalLines, v.Height, v.Cursor + half, v.Offset + half⟩

/-- `(*Viewport).HalfPageUp`: shift offset and cursor up by `max(1, height/2)`
and clamp. -/
def HalfPageUp (v : Viewport) : Viewport :=
  let half := Int.tdiv v.Height 2
  let half := if half < 1 then 1 else half
  clamp ⟨v.TotalLines, v.Height, v.Cursor - half, v.Offset - half⟩

/-- `(*Viewport).ScrollDown(n)`: no-op when `n < 1`, else move the offset down
by `n` (cursor untouched) and clamp. -/
def ScrollDown (v : Viewport) (n : Int) : Viewport :=
  if n < 1 then v else clamp ⟨v.TotalLines, v.Height, v.Cursor, v.Offset + n⟩

/-- `(*Viewport).ScrollUp(n)`: no-op when `n < 1`, else move the offset up by
`n` (cursor untouched) and clamp. -/
def ScrollUp (v : Viewport) (n : Int) : Viewport :=
  if n < 1 then v else clamp ⟨v.TotalLines, v.Height, v.Cursor, v.Offset - n⟩

/-- `(*Viewport).Goto(line)`: place the cursor on the given line and clamp. -/
def Goto (v : Viewport) (line : Int) : Viewport :=
  clamp ⟨v.TotalLines, v.Height, line, v.Offset⟩

/-- `(*Viewport).GotoTop`: `Goto(1)`. -/
def GotoTop (v : Viewport) : Viewport :=
  Goto v 1

/-- `(*Viewport).GotoBottom`: `Goto(TotalLines)`. -/
def GotoBottom (v : Viewport) : Viewport :=
  Goto v v.TotalLines

/-- `(*Viewport).GotoLineTop` (vim H): cursor to the first visible line. -/
def GotoLineTop (v : Viewport) : Viewport :=
  clamp ⟨v.TotalLines, v.Height, v.Offset, v.Offset⟩

/-- `(*Viewport).GotoLineMiddle` (vim M): cursor to `offset + height/2`,
capped at `TotalLines`, then clamp. -/
def GotoLineMiddle (v : Viewport) : Viewport :=
  let c := v.Offset + Int.tdiv v.Height 2
  let c := if c > v.TotalLines then v.TotalLines else c
  clamp ⟨v.TotalLines, v.Height, c, v.Offset⟩

/-- `(*Viewport).GotoLineBottom` (vim L): cursor to `offset + height - 1`,
capped at `TotalLines`, then clamp. -/
def GotoLineBottom (v : Viewport) : Viewport :=
  let c := v.Offset + v.Height - 1
  let c := if c > v.TotalLines then v.TotalLines else c
  clamp ⟨v.TotalLines, v.Height, c, v.Offset⟩

/-- `(*Viewport).JumpToPercent(percent)`: clamp the percentage into `[1,100]`,
compute `totalLines*percent/100` with Go's truncating division, clamp that
into `[1, TotalLines]`, and `Goto` it. -/
def JumpToPercent (v : Viewport) (percent : Int) : Viewport :=
  let p := if percent < 1 then 1 else percent
  let p := if p > 100 then 100 else p
  let line := Int.tdiv (v.TotalLines * p) 100
  let line := if line < 1 then 1 else line
  let line := if line > v.TotalLines then v.TotalLines else line
  Goto v line

/-- `(*Viewport).ClickAt(relativeRow)`: clamp the row into `[0, height-1]`,
place the cursor at `offset + row`, and clamp. -/
def ClickAt (v : Viewport) (relativeRow : Int) : Viewport :=
  let r := if relativeRow < 0 then 0 else relativeRow
  let r := if r ≥ v.Height then v.Height - 1 else r
  clamp ⟨v.TotalLines, v.Height, v.Offset + r, v.Offset⟩

/-- The navigation and reconfiguration commands of the `nav` package, used to
describe the set of viewport states reachable from `New`. -/
inductive Cmd where
  | down (n : Int)
  | up (n : Int)
  | pageDown
  | pageUp
  | halfPageDown
  | halfPageUp
  | scrollDown (n : Int)
  | scrollUp (n : Int)
  | goto (line : Int)
  | gotoTop
  | gotoBottom
  | gotoLineTop
  | gotoLineMiddle
  | gotoLineBottom
  | jumpToPercent (p : Int)
  | clickAt (r : Int)
  | setHeight (h : Int)
  | setTotalLines (n : Int)

/-- Applying one command to a viewport. -/
def step (c : Cmd) (v : Viewport) : Viewport :=
  match c with
  | .down n => Down v n
  | .up n => Up v n
  | .pageDown => PageDown v
  | .pageUp => PageUp v
  | .halfPageDown => HalfPageDown v
  | .halfPageUp => HalfPageUp v
  | .scrollDown n => ScrollDown v n
  | .scrollUp n => ScrollUp v n
  | .goto line => Goto v line
  | .gotoTop => GotoTop v
  | .gotoBottom => GotoBottom v
  | .gotoLineTop => GotoLineTop v
  | .gotoLineMiddle => GotoLineMiddle v
  | .gotoLineBottom => GotoLineBottom v
  | .jumpToPercent p => JumpToPercent v p
  | .clickAt r => ClickAt v r
  | .setHeight h => SetHeight v h
  | .setTotalLines n => SetTotalLines v n

/-- Navigation (motion) commands: every command except the two
reconfiguration entry points `SetHeight` and `SetTotalLines`. -/
def Cmd.isNav : Cmd → Bool
  | .setHeight _ => false
  | .setTotalLines _ => false
  | _ => true

/-- Viewport states reachable from `New(totalLines, height)` with
`height >= 1` by any sequence of commands. -/
inductive Reachable : Viewport → Prop where
  | new (totalLines height : Int) (hh : 1 ≤ height) : Reachable (New totalLines height)
  | step (c : Cmd) (v : Viewport) (hv : Reachable v) : Reachable (step c v)

/-- The viewport consistency invariant: height at least 1; when at least one
line exists the cursor lies in `[1, totalLines]` and inside the visible
window; with no lines, cursor and offset are pinned to 1. -/
def Inv (v : Viewport) : Prop :=
  1 ≤ v.Height ∧
  (1 ≤ v.TotalLines →
    1 ≤ v.Cursor ∧ v.Cursor ≤ v.TotalLines ∧
    v.Offset ≤ v.Cursor ∧ v.Cursor ≤ v.Offset + v.Height - 1) ∧
  (v.TotalLines < 1 → v.Cursor = 1 ∧ v.Offset = 1)

end nav

namespace index

/-- Membership bound for the scanned offsets. -/
theorem buildOffsetsList_mem_lt (data : List Nat) (hne : 1 ≤ data.length) :
    ∀ o ∈ buildOffsetsList data, o < data.length := by
  intro o ho
  have hmem : ∀ x ∈ (0 :: (List.range data.length).filterMap
      (fun i => if data.getD i 0 = 10 ∧ i + 1 < data.length then some (i + 1) else none)),
      x < data.length := by
    intro x hx
    rcases List.mem_cons.mp hx with h0 | hfm
    · omega
    · rcases List.mem_filterMap.mp hfm with ⟨i, hi, hfi⟩
      by_cases hc : data.getD i 0 = 10 ∧ i + 1 < data.length
      · rw [if_pos hc] at hfi
        cases hfi
        omega
      · rw [if_neg hc] at hfi
        cases hfi
  simp only [buildOffsetsList] at ho
  split at ho
  · exact hmem o ((List.dropLast_sublist _).subset ho)
  · exact hmem o ho

/-- The scanned offset list is strictly increasing, before the trailing drop. -/
theorem buildOffsetsList_pairwise (data : List Nat) :
    (buildOffsetsList data).Pairwise (· < ·) := by
  have hfm : ((List.range data.length).filterMap
      (fun i => if data.getD i 0 = 10 ∧ i + 1 < data.length then some (i + 1) else none)).Pairwise
      (· < ·) := by
    refine List.Pairwise.filterMap _ ?_ (List.pairwise_lt_range data.length)
    intro a b hab x hx y hy
    by_cases hca : data.getD a 0 = 10 ∧ a + 1 < data.length
    · by_cases hcb : data.getD b 0 = 10 ∧ b + 1 < data.length
      · rw [if_pos hca] at hx
        rw [if_pos hcb] at hy
        cases hx
        cases hy
        omega
      · rw [if_neg hcb] at hy
        cases hy
    · rw [if_neg hca] at hx
      cases hx
  have hcons : (0 :: (List.range data.length).filterMap
      (fun i => if data.getD i 0 = 10 ∧ i + 1 < data.length then some (i + 1) else none)).Pairwise
      (· < ·) := by
    rw [List.pairwise_cons]
    refine ⟨?_, hfm⟩
    intro x hx
    rcases List.mem_filterMap.mp hx with ⟨i, hi, hfi⟩
    by_cases hc : data.getD i 0 = 10 ∧ i + 1 < data.length
    · rw [if_pos hc] at hfi
      cases hfi
      omega
    · rw [if_neg hc] at hfi
      cases hfi
  simp only [buildOffsetsList]
  split
  · exact hcons.sublist (List.dropLast_sublist _)
  · exact hcons

/-- The offset list starts with 0. -/
theorem buildOffsetsList_head (data : List Nat) :
    (buildOffsetsList data).head? = some 0 := by
  simp only [buildOffsetsList]
  split
  next h =>
    rcases h with ⟨hlen, _⟩
    match hm : (List.range data.length).filterMap
        (fun i => if data.getD i 0 = 10 ∧ i + 1 < data.length then some (i + 1) else none) with
    | [] =>
      rw [hm] at hlen
      simp at hlen
    | a :: t =>
      rw [List.dropLast_cons₂]
      rfl
  next h => rfl

end index

namespace index

/-- C3: for every input with at least one line, LineCount equals the length of
the offsets table, offsets start at 0, offsets are strictly increasing, every
offset lies strictly inside the data (no spurious final line at a trailing
newline), and concretely a 2-line file with trailing newline yields 2 offsets
while a file of three bare newlines yields 3. -/
theorem buildOffsets_invariants (data : List Nat) (hne : 1 ≤ data.length) :
    LineCount ⟨data, buildOffsetsList data, "f"⟩ = ((buildOffsetsList data).length : Int) ∧
    buildOffsets data = .ok (buildOffsetsList data) ∧
    (buildOffsetsList data).head? = some 0 ∧
    (buildOffsetsList data).Pairwise (· < ·) ∧
    (∀ o ∈ buildOffsetsList data, o < data.length) ∧
    (buildOffsetsList [108, 105, 110, 101, 49, 10, 108, 105, 110, 101, 50, 10]).length = 2 ∧
    (buildOffsetsList [10, 10, 10]).length = 3 := by
  refine ⟨rfl, ?_, buildOffsetsList_head data, buildOffsetsList_pairwise data,
    buildOffsetsList_mem_lt data hne, rfl, rfl⟩
  unfold buildOffsets
  rw [if_neg (by omega)]

theorem buildOffsets_invariants_witness :
    (buildOffsetsList [10]).head? = some 0 :=
  (buildOffsets_invariants [10] (by decide)).2.2.1

/-- C4: Open and OpenReader fail with ErrEmptyFile exactly when the byte
sequence is empty (and then return no index). -/
theorem open_empty_iff (data : List Nat) (path name : String) :
    (Open data path = .error .ErrEmptyFile ↔ data = []) ∧
    (OpenReader data name = .error .ErrEmptyFile ↔ data = []) := by
  unfold Open OpenReader buildOffsets
  cases data <;> simp

theorem open_empty_iff_witness :
    Open [] "some.log" = .error .ErrEmptyFile :=
  (open_empty_iff [] "some.log" "stdin").1.mpr rfl

/-- C5: GetLine (and GetLineString) fail with ErrInvalidLine exactly when
n < 1 or n > LineCount, and succeed on every n in [1, LineCount]. -/
theorem getLine_invalid_iff (idx : Index) (n : Int) :
    (GetLine idx n = .error .ErrInvalidLine ↔ (n < 1 ∨ LineCount idx < n)) ∧
    (GetLineString idx n = .error .ErrInvalidLine ↔ (n < 1 ∨ LineCount idx < n)) ∧
    (1 ≤ n → n ≤ LineCount idx → isOk (GetLine idx n) = true) := by
  have hmain : GetLine idx n = .error .ErrInvalidLine ↔ (n < 1 ∨ LineCount idx < n) := by
    unfold GetLine LineCount
    split
    next h => simp [h]
    next h => simp [h]
  refine ⟨hmain, ?_, ?_⟩
  · unfold GetLineString
    exact hmain
  · intro h1 h2
    unfold GetLine
    rw [if_neg ?_]
    · rfl
    · unfold LineCount at h2
      omega

theorem getLine_invalid_iff_witness :
    isOk (GetLine ⟨sampleThreeLines, [0, 6, 12], "t"⟩ 2) = true :=
  (getLine_invalid_iff ⟨sampleThreeLines, [0, 6, 12], "t"⟩ 2).2.2 (by decide) (by decide)

/-- C1 evaluation at the failing input: on the 3-line file
"line1\nline2\nline3\n" the index opens with offsets [0, 6, 12] and
LineCount 3, but GetLineString(3) keeps the trailing newline byte 10, so it
is not the bytes of "line3". -/
theorem getLine_lastLine_keeps_trailing_newline :
    Open sampleThreeLines "f" = .ok ⟨sampleThreeLines, [0, 6, 12], "f"⟩ ∧
    LineCount ⟨sampleThreeLines, [0, 6, 12], "f"⟩ = 3 ∧
    GetLineString ⟨sampleThreeLines, [0, 6, 12], "f"⟩ 3 = .ok [108, 105, 110, 101, 51, 10] ∧
    GetLineString ⟨sampleThreeLines, [0, 6, 12], "f"⟩ 3 ≠ .ok [108, 105, 110, 101, 51] := by
  refine ⟨rfl, rfl, rfl, ?_⟩
  intro h
  rw [show GetLineString ⟨sampleThreeLines, [0, 6, 12], "f"⟩ 3 =
    .ok [108, 105, 110, 101, 51, 10] from rfl] at h
  exact absurd (Except.ok.inj h) (by decide)

end index

namespace nav

theorem clamp_TotalLines (v : Viewport) : (clamp v).TotalLines = v.TotalLines := by
  simp only [clamp]
  split <;> rfl

theorem clamp_Height (v : Viewport) : (clamp v).Height = v.Height := by
  simp only [clamp]
  split <;> rfl

theorem clamp_Cursor (v : Viewport) :
    (clamp v).Cursor = if v.TotalLines < 1 then 1 else clampCursor v.TotalLines v.Cursor := by
  simp only [clamp]
  split <;> rfl

theorem clamp_Offset (v : Viewport) :
    (clamp v).Offset = if v.TotalLines < 1 then 1
      else clampOffset v.TotalLines v.Height (clampCursor v.TotalLines v.Cursor) v.Offset := by
  simp only [clamp]
  split <;> rfl

theorem clampCursor_bounds (totalLines c : Int) (hT : 1 ≤ totalLines) :
    1 ≤ clampCursor totalLines c ∧ clampCursor totalLines c ≤ totalLines := by
  simp only [clampCursor]
  split_ifs <;> omega

theorem clampOffset_bounds (totalLines height c o : Int) (hH : 1 ≤ height)
    (hc : 1 ≤ c) (hcT : c ≤ totalLines) :
    clampOffset totalLines height c o ≤ c ∧
    c ≤ clampOffset totalLines height c o + height - 1 ∧
    1 ≤ clampOffset totalLines height c o := by
  simp only [clampOffset]
  split_ifs <;> omega

theorem Inv_clamp (totalLines height c o : Int) (hh : 1 ≤ height) :
    Inv (clamp ⟨totalLines, height, c, o⟩) := by
  rw [Inv, clamp_TotalLines, clamp_Height, clamp_Cursor, clamp_Offset]
  dsimp only
  refine ⟨hh, ?_, ?_⟩
  · intro hT
    rw [if_neg (by omega), if_neg (by omega)]
    have h1 := clampCursor_bounds totalLines c hT
    have h2 := clampOffset_bounds totalLines height (clampCursor totalLines c) o hh h1.1 h1.2
    exact ⟨h1.1, h1.2, h2.1, h2.2.1⟩
  · intro hT
    rw [if_pos hT, if_pos hT]
    exact ⟨rfl, rfl⟩

theorem Inv_step (c : Cmd) (v : Viewport) (hv : Inv v) : Inv (step c v) := by
  have hh := hv.1
  cases c with
  | down n =>
    simp only [step, Down]
    split_ifs
    · exact hv
    · exact Inv_clamp _ _ _ _ hh
  | up n =>
    simp only [step, Up]
    split_ifs
    · exact hv
    · exact Inv_clamp _ _ _ _ hh
  | pageDown => exact Inv_clamp _ _ _ _ hh
  | pageUp => exact Inv_clamp _ _ _ _ hh
  | halfPageDown => exact Inv_clamp _ _ _ _ hh
  | halfPageUp => exact Inv_clamp _ _ _ _ hh
  | scrollDown n =>
    simp only [step, ScrollDown]
    split_ifs
    · exact hv
    · exact Inv_clamp _ _ _ _ hh
  | scrollUp n =>
    simp only [step, ScrollUp]
    split_ifs
    · exact hv
    · exact Inv_clamp _ _ _ _ hh
  | goto line => exact Inv_clamp _ _ _ _ hh
  | gotoTop => exact Inv_clamp _ _ _ _ hh
  | gotoBottom => exact Inv_clamp _ _ _ _ hh
  | gotoLineTop => exact Inv_clamp _ _ _ _ hh
  | gotoLineMiddle => exact Inv_clamp _ _ _ _ hh
  | gotoLineBottom => exact Inv_clamp _ _ _ _ hh
  | jumpToPercent p => exact Inv_clamp _ _ _ _ hh
  | clickAt r => exact Inv_clamp _ _ _ _ hh
  | setHeight h => exact Inv_clamp _ _ _ _ (by split_ifs <;> omega)
  | setTotalLines n => exact Inv_clamp _ _ _ _ hh

theorem reachable_Inv (v : Viewport) (hv : Reachable v) : Inv v := by
  induction hv with
  | new t h hh => exact Inv_clamp _ _ _ _ hh
  | step c w hw ih => exact Inv_step c w ih

end nav

namespace nav

theorem step_noop_of_empty (v : Viewport) (c : Cmd) (hv : Inv v) (hT : v.TotalLines = 0)
    (hnav : c.isNav = true) : step c v = v := by
  obtain ⟨T, H, C, O⟩ := v
  dsimp only at hT
  subst hT
  obtain ⟨hC, hO⟩ := hv.2.2 (show (0:Int) < 1 by omega)
  dsimp only at hC hO
  subst hC
  subst hO
  have hpin : ∀ x y : Int, clamp ⟨0, H, x, y⟩ = ⟨0, H, 1, 1⟩ := by
    intro x y
    simp only [clamp]
    rw [if_pos (by omega)]
  cases c with
  | down n =>
    simp only [step, Down]
    split_ifs
    · rfl
    · exact hpin _ _
  | up n =>
    simp only [step, Up]
    split_ifs
    · rfl
    · exact hpin _ _
  | pageDown => exact hpin _ _
  | pageUp => exact hpin _ _
  | halfPageDown => exact hpin _ _
  | halfPageUp => exact hpin _ _
  | scrollDown n =>
    simp only [step, ScrollDown]
    split_ifs
    · rfl
    · exact hpin _ _
  | scrollUp n =>
    simp only [step, ScrollUp]
    split_ifs
    · rfl
    · exact hpin _ _
  | goto line => exact hpin _ _
  | gotoTop => exact hpin _ _
  | gotoBottom => exact hpin _ _
  | gotoLineTop => exact hpin _ _
  | gotoLineMiddle => exact hpin _ _
  | gotoLineBottom => exact hpin _ _
  | jumpToPercent p => exact hpin _ _
  | clickAt r => exact hpin _ _
  | setHeight h => simp [Cmd.isNav] at hnav
  | setTotalLines n => simp [Cmd.isNav] at hnav

/-- C2: every viewport state reachable from New(totalLines, height) with
height >= 1 under any command sequence satisfies 1 <= cursor <= totalLines
and offset <= cursor <= offset+height-1 whenever totalLines >= 1, and has
cursor = offset = 1 whenever totalLines = 0, in which case every navigation
command leaves the state unchanged. -/
theorem viewport_invariant (v : Viewport) (hv : Reachable v) :
    (1 ≤ v.TotalLines →
      1 ≤ v.Cursor ∧ v.Cursor ≤ v.TotalLines ∧
      v.Offset ≤ v.Cursor ∧ v.Cursor ≤ v.Offset + v.Height - 1) ∧
    (v.TotalLines = 0 →
      v.Cursor = 1 ∧ v.Offset = 1 ∧ ∀ c : Cmd, c.isNav = true → step c v = v) := by
  have hInv := reachable_Inv v hv
  refine ⟨hInv.2.1, ?_⟩
  intro hT
  obtain ⟨hC, hO⟩ := hInv.2.2 (by omega)
  exact ⟨hC, hO, fun c hc => step_noop_of_empty v c hInv hT hc⟩

theorem viewport_invariant_witness :
    1 ≤ (New 10 5).Cursor ∧ (New 10 5).Cursor ≤ (New 10 5).TotalLines ∧
    (New 10 5).Offset ≤ (New 10 5).Cursor ∧
    (New 10 5).Cursor ≤ (New 10 5).Offset + (New 10 5).Height - 1 :=
  (viewport_invariant (New 10 5) (Reachable.new 10 5 (by decide))).1 (by decide)

end nav

namespace nav

theorem pageDown_past_end (T H C O : Int) (hT : 1 ≤ T) (hpast : T < O + H) :
    PageDown ⟨T, H, C, O⟩ = ⟨T, H, T, if T - H + 1 < 1 then 1 else T - H + 1⟩ := by
  simp only [PageDown, clamp]
  rw [if_neg (by omega)]
  simp only [Viewport.mk.injEq]
  refine ⟨trivial, trivial, ?_, ?_⟩
  · simp only [clampCursor]
    split_ifs <;> omega
  · simp only [clampOffset, clampCursor]
    split_ifs <;> omega

/-- C6: with at least one line and height >= 1, a PageDown whose target
offset lies past the last line clamps the offset to the last valid screen
start max(1, totalLines-height+1) and the cursor to the last line, a second
PageDown changes nothing more, and the end-of-file state is a PageDown fixed
point. -/
theorem pageDown_end_clamps_and_fixes (v : Viewport) (hT : 1 ≤ v.TotalLines)
    (hH : 1 ≤ v.Height) :
    (v.TotalLines < v.Offset + v.Height →
      (PageDown v).Offset = max 1 (v.TotalLines - v.Height + 1) ∧
      (PageDown v).Cursor = v.TotalLines ∧
      PageDown (PageDown v) = PageDown v) ∧
    (v.Cursor = v.TotalLines ∧ v.Offset = max 1 (v.TotalLines - v.Height + 1) →
      PageDown v = v) := by
  obtain ⟨T, H, C, O⟩ := v
  dsimp only at hT hH ⊢
  constructor
  · intro hpast
    rw [pageDown_past_end T H C O hT hpast]
    refine ⟨?_, rfl, ?_⟩
    · dsimp only
      split_ifs <;> omega
    · rw [pageDown_past_end T H T _ hT (by split_ifs <;> omega)]
  · rintro ⟨hC, hO⟩
    rw [pageDown_past_end T H C O hT (by omega)]
    simp only [Viewport.mk.injEq]
    refine ⟨trivial, trivial, hC.symm, by omega⟩

theorem pageDown_end_clamps_and_fixes_witness :
    (PageDown ⟨100, 10, 91, 91⟩).Offset = max 1 ((100:Int) - 10 + 1) ∧
    (PageDown ⟨100, 10, 91, 91⟩).Cursor = 100 ∧
    PageDown (PageDown ⟨100, 10, 91, 91⟩) = PageDown ⟨100, 10, 91, 91⟩ :=
  (pageDown_end_clamps_and_fixes ⟨100, 10, 91, 91⟩ (by decide) (by decide)).1 (by decide)

/-- C9: GotoBottom followed by Down(n), n >= 0, leaves the cursor where
GotoBottom put it; GotoTop followed by Up(n) likewise. -/
theorem bottom_down_top_up_cursor_fixed (v : Viewport) (n : Int) (hn : 0 ≤ n) :
    (Down (GotoBottom v) n).Cursor = (GotoBottom v).Cursor ∧
    (Up (GotoTop v) n).Cursor = (GotoTop v).Cursor := by
  constructor
  · simp only [GotoBottom, Goto, Down]
    split_ifs with h
    · rfl
    · simp only [clamp_Cursor, clamp_TotalLines]
      by_cases hT : v.TotalLines < 1
      · rw [if_pos hT, if_pos hT]
      · rw [if_neg hT, if_neg hT]
        simp only [clampCursor]
        split_ifs <;> omega
  · simp only [GotoTop, Goto, Up]
    split_ifs with h
    · rfl
    · simp only [clamp_Cursor, clamp_TotalLines]
      by_cases hT : v.TotalLines < 1
      · rw [if_pos hT, if_pos hT]
      · rw [if_neg hT, if_neg hT]
        simp only [clampCursor]
        split_ifs <;> omega

theorem bottom_down_top_up_cursor_fixed_witness :
    (Down (GotoBottom ⟨7, 3, 2, 1⟩) 4).Cursor = (GotoBottom ⟨7, 3, 2, 1⟩).Cursor ∧
    (Up (GotoTop ⟨7, 3, 2, 1⟩) 4).Cursor = (GotoTop ⟨7, 3, 2, 1⟩).Cursor :=
  bottom_down_top_up_cursor_fixed ⟨7, 3, 2, 1⟩ 4 (by decide)

/-- C10: ScrollDown(n) and ScrollUp(n) with n < 1 return before mutating or
clamping, leaving every field of any viewport state unchanged. -/
theorem scroll_nonpositive_noop (v : Viewport) (n : Int) (hn : n < 1) :
    ScrollDown v n = v ∧ ScrollUp v n = v := by
  rw [ScrollDown, ScrollUp, if_pos hn, if_pos hn]
  exact ⟨rfl, rfl⟩

theorem scroll_nonpositive_noop_witness :
    ScrollDown ⟨-3, 0, 7, 9⟩ 0 = (⟨-3, 0, 7, 9⟩ : Viewport) ∧
    ScrollUp ⟨-3, 0, 7, 9⟩ 0 = (⟨-3, 0, 7, 9⟩ : Viewport) :=
  scroll_nonpositive_noop ⟨-3, 0, 7, 9⟩ 0 (by decide)

end nav

namespace nav

theorem jumpToPercent_cursor (v : Viewport) (p : Int) (hT : 1 ≤ v.TotalLines) :
    (JumpToPercent v p).Cursor =
      max 1 (Int.tdiv (v.TotalLines * min 100 (max 1 p)) 100) := by
  have hq : (if (if p < 1 then 1 else p) > 100 then 100 else if p < 1 then 1 else p) =
      min 100 (max 1 p) := by
    split_ifs <;> omega
  have hq1 : 1 ≤ min 100 (max 1 p) := by omega
  have hq100 : min 100 (max 1 p) ≤ 100 := by omega
  have hm0 : 0 ≤ v.TotalLines * min 100 (max 1 p) := by positivity
  have hl0 : 0 ≤ Int.tdiv (v.TotalLines * min 100 (max 1 p)) 100 :=
    Int.tdiv_nonneg hm0 (by omega)
  have hlT : Int.tdiv (v.TotalLines * min 100 (max 1 p)) 100 ≤ v.TotalLines := by
    rw [Int.tdiv_eq_ediv hm0 (by omega)]
    calc v.TotalLines * min 100 (max 1 p) / 100
        ≤ v.TotalLines * 100 / 100 :=
          Int.ediv_le_ediv (by omega) (by nlinarith)
      _ = v.TotalLines := Int.mul_ediv_cancel v.TotalLines (by omega)
  simp only [JumpToPercent, Goto]
  rw [hq]
  rw [clamp_Cursor]
  dsimp only
  rw [if_neg (by omega)]
  simp only [clampCursor]
  split_ifs <;> omega

/-- C7 counterexample: on a 300-line viewport, JumpToPercent(0) lands the
cursor on line 3 = 300*1/100, not on line 1 as the claim states. -/
theorem jumpToPercent_zero_not_line_one :
    (JumpToPercent (New 300 10) 0).Cursor = 3 ∧
    (JumpToPercent (New 300 10) 0).Cursor ≠ 1 := by
  decide

/-- C7 (amended): with totalLines >= 1, JumpToPercent(p) clamps p into
[1,100] and puts the cursor at max(1, totalLines*p/100) with truncating
integer division; JumpToPercent(0) lands at max(1, totalLines/100) (never
line 0, line 1 when totalLines < 200), JumpToPercent(100) lands exactly on
the last line, and on New(100,10) JumpToPercent(0) gives 1 and
JumpToPercent(200) gives 100. -/
theorem jumpToPercent_formula (v : Viewport) (p : Int) (hT : 1 ≤ v.TotalLines) :
    (JumpToPercent v p).Cursor =
      max 1 (Int.tdiv (v.TotalLines * min 100 (max 1 p)) 100) ∧
    (JumpToPercent v 0).Cursor = max 1 (Int.tdiv v.TotalLines 100) ∧
    1 ≤ (JumpToPercent v 0).Cursor ∧
    (JumpToPercent v 100).Cursor = v.TotalLines ∧
    (JumpToPercent (New 100 10) 0).Cursor = 1 ∧
    (JumpToPercent (New 100 10) 200).Cursor = 100 := by
  refine ⟨jumpToPercent_cursor v p hT, ?_, ?_, ?_, by decide, by decide⟩
  · rw [jumpToPercent_cursor v 0 hT]
    norm_num
  · rw [jumpToPercent_cursor v 0 hT]
    omega
  · rw [jumpToPercent_cursor v 100 hT]
    have : min 100 (max 1 (100:Int)) = 100 := by omega
    rw [this]
    rw [Int.tdiv_eq_ediv (by positivity) (by omega)]
    rw [Int.mul_ediv_cancel v.TotalLines (by omega)]
    omega

theorem jumpToPercent_formula_witness :
    (JumpToPercent (New 100 10) 37).Cursor =
      max 1 (Int.tdiv ((New 100 10).TotalLines * min 100 (max 1 37)) 100) ∧
    (JumpToPercent (New 100 10) 0).Cursor = max 1 (Int.tdiv (New 100 10).TotalLines 100) ∧
    1 ≤ (JumpToPercent (New 100 10) 0).Cursor ∧
    (JumpToPercent (New 100 10) 100).Cursor = (New 100 10).TotalLines ∧
    (JumpToPercent (New 100 10) 0).Cursor = 1 ∧
    (JumpToPercent (New 100 10) 200).Cursor = 100 :=
  jumpToPercent_formula (New 100 10) 37 (by decide)

/-- C8: with totalLines >= 1 and 1 <= p1 < p2 <= 100, jumping to p1 percent
lands at a line no greater than jumping to p2 percent from the same state. -/
theorem jumpToPercent_monotone (v : Viewport) (p1 p2 : Int) (hT : 1 ≤ v.TotalLines)
    (h1 : 1 ≤ p1) (h12 : p1 < p2) (h2 : p2 ≤ 100) :
    (JumpToPercent v p1).Cursor ≤ (JumpToPercent v p2).Cursor := by
  rw [jumpToPercent_cursor v p1 hT, jumpToPercent_cursor v p2 hT]
  have e1 : min 100 (max 1 p1) = p1 := by omega
  have e2 : min 100 (max 1 p2) = p2 := by omega
  rw [e1, e2]
  have hm : v.TotalLines * p1 ≤ v.TotalLines * p2 := by nlinarith
  have := Int.ediv_le_ediv (show (0:Int) < 100 by omega) hm
  rw [Int.tdiv_eq_ediv (mul_nonneg (by omega) (by omega)) (by omega),
    Int.tdiv_eq_ediv (mul_nonneg (by omega) (by omega)) (by omega)]
  omega

theorem jumpToPercent_monotone_witness :
    (JumpToPercent (New 100 10) 30).Cursor ≤ (JumpToPercent (New 100 10) 60).Cursor :=
  jumpToPercent_monotone (New 100 10) 30 60 (by decide) (by decide) (by decide) (by decide)

end nav
